import Mathlib

/-!
Verification of the magic-github-crawler crawl orchestration subsystem.

Shallow embedding of:
  src/ghcrawler/api/rate_limiting.py  (RateLimiter token bucket)
  src/ghcrawler/api/github_client.py  (GithubClient.search_repos, retry policy)
  src/ghcrawler/core/crawler.py       (segment planner, segment runner, scheduler)

Machine floats for token counts and monotonic-clock times are embedded as
rationals; the asyncio event loop is embedded as an interleaving step
relation whose atomic steps are the code regions between awaits.
-/

/- ===================== Rate Governor (rate_limiting.py) ===================== -/

/-- State of the RateLimiter token bucket: fields capacity, _tokens,
_refill_rate (tokens per second), _updated (monotonic-clock stamp). -/
structure LimiterState where
  capacity : ℚ
  tokens : ℚ
  refillRate : ℚ
  updated : ℚ
  deriving DecidableEq, Repr

/-- RateLimiter.__init__: tokens start at capacity; refill rate is
refill_per_min / 60 tokens per second. -/
def limiterInit (capacity refill_per_min now : ℚ) : LimiterState :=
  { capacity := capacity
    tokens := capacity
    refillRate := refill_per_min / 60
    updated := now }

/-- RateLimiter._refill: add elapsed * rate tokens, capped at capacity. -/
def refill (s : LimiterState) (now : ℚ) : LimiterState :=
  { s with
    tokens := min s.capacity (s.tokens + (now - s.updated) * s.refillRate)
    updated := now }

/-- The while loop of RateLimiter.acquire: while tokens < cost, sleep exactly
(cost - tokens) / rate seconds and refill; then debit cost.  The sleep is
embedded as advancing the clock by exactly the sleep time (ideal monotonic
clock, acquisitions serialized by the lock).  fuel bounds the number of loop
iterations so the function is total; none models non-termination within fuel. -/
def acquireLoop (cost : ℚ) : ℕ → LimiterState → Option LimiterState
  | 0, _ => none
  | fuel + 1, s =>
    if s.tokens < cost then
      acquireLoop cost fuel (refill s (s.updated + (cost - s.tokens) / s.refillRate))
    else
      some { s with tokens := s.tokens - cost }

/-- RateLimiter.acquire: refill at the current clock, then run the wait loop. -/
def acquire (s : LimiterState) (now cost : ℚ) (fuel : ℕ) : Option LimiterState :=
  acquireLoop cost fuel (refill s now)

/-- acquire, defaulting to the unchanged state if the fuel bound is hit
(never the case for the costs this program uses; see the C7 theorems). -/
def acquireD (s : LimiterState) (now cost : ℚ) (fuel : ℕ) : LimiterState :=
  (acquire s now cost fuel).getD s

/-- Bucket invariant: token count is between 0 and capacity. -/
def LimiterInv (s : LimiterState) : Prop :=
  0 ≤ s.tokens ∧ s.tokens ≤ s.capacity

instance (s : LimiterState) : Decidable (LimiterInv s) := by
  unfold LimiterInv; infer_instance

/-- One acquire call with its clock reading, its cost and its fuel bound. -/
def runCalls (fuel : ℕ) : LimiterState → List (ℚ × ℚ) → LimiterState
  | s, [] => s
  | s, (now, cost) :: rest => runCalls fuel (acquireD s now cost fuel) rest

/-- The clock readings of a call sequence never run backwards relative to the
stamp stored in the bucket (monotonic clock). -/
def timesOk (fuel : ℕ) : LimiterState → List (ℚ × ℚ) → Bool
  | _, [] => true
  | s, (now, cost) :: rest =>
    decide (s.updated ≤ now) && timesOk fuel (acquireD s now cost fuel) rest

/- ===================== API Client (github_client.py) ===================== -/

/-- Estimated cost acquired before each request. -/
def PRE_ACQUIRE_COST : ℚ := 1

/-- Fuel that always suffices for the acquire loop at the costs this client
uses (at most one sleep iteration; proved in the C7 theorems). -/
def LIMITER_FUEL : ℕ := 2

/-- RepoNode parsed from one search node. -/
structure RepoNode where
  id : ℕ
  nameWithOwner : String
  stargazerCount : ℕ
  deriving DecidableEq, Repr

/-- GithubPage: the typed result of one search_repos call. -/
structure GithubPage where
  repos : List RepoNode
  end_cursor : Option String
  has_next : Bool
  cost : ℕ
  remaining : ℕ
  deriving DecidableEq, Repr

/-- The observable HTTP response to one GraphQL POST.  retryAfterHeader:
none = header absent, some none = present but not an integer,
some (some n) = parses to n.  bodyMentionsAbuse models the substring test
for abuse / secondary rate limit wording in the response body. -/
structure HttpResponse where
  status : ℕ
  bodyMentionsAbuse : Bool
  retryAfterHeader : Option (Option ℕ)
  pageEndCursor : Option String
  pageHasNextPage : Bool
  nodes : List RepoNode
  rateLimitCost : ℕ
  rateLimitRemaining : ℕ
  deriving DecidableEq, Repr

/-- The exceptions search_repos can raise.  transport stands for the
network-level aiohttp.ClientError family raised by the transport itself;
httpStatus stands for aiohttp.ClientResponseError raised by
resp.raise_for_status; abuseRateLimit is GithubAbuseRateLimitError. -/
inductive ClientExc where
  | transport
  | httpStatus (status : ℕ)
  | abuseRateLimit (retry_after : ℕ)
  deriving DecidableEq, Repr

/-- isinstance(e, aiohttp.ClientError): true for the transport family and
for ClientResponseError, which derives from ClientError in aiohttp. -/
def isAiohttpClientError : ClientExc → Bool
  | .transport => true
  | .httpStatus _ => true
  | .abuseRateLimit _ => false

/-- retry_if_exception_type((aiohttp.ClientError, GithubAbuseRateLimitError)). -/
def retryPredicate (e : ClientExc) : Bool :=
  isAiohttpClientError e ||
    (match e with
     | .abuseRateLimit _ => true
     | _ => false)

/-- Successful parse of the response body into a GithubPage. -/
def parsePage (r : HttpResponse) : GithubPage :=
  { repos := r.nodes
    end_cursor := r.pageEndCursor
    has_next := r.pageHasNextPage
    cost := r.rateLimitCost
    remaining := r.rateLimitRemaining }

/-- One attempt of GithubClient.search_repos (the body inside the retry
decorator), as a function of the governor state, the clock and the response
the platform gives to this request: acquire the estimated pre-request cost,
then classify the response.  A 403 whose body signals abuse and whose
Retry-After header parses raises GithubAbuseRateLimitError; any other 403
falls through to raise_for_status, which raises for every status >= 400;
otherwise the page is parsed and returned.  Note the governor is touched
exactly once, before the request. -/
def searchReposOnce (s : LimiterState) (now : ℚ) (r : HttpResponse) :
    Except ClientExc GithubPage × LimiterState :=
  let s1 := acquireD s now PRE_ACQUIRE_COST LIMITER_FUEL
  if r.status == 403 && r.bodyMentionsAbuse then
    match r.retryAfterHeader with
    | some (some n) => (.error (.abuseRateLimit n), s1)
    | some none => (.error (.httpStatus r.status), s1)
    | none => (.error (.httpStatus r.status), s1)
  else if 400 ≤ r.status then (.error (.httpStatus r.status), s1)
  else (.ok (parsePage r), s1)

/- ===================== Retry policy (tenacity decorator) ===================== -/

/-- tenacity wait_exponential(multiplier, max, exp_base = 2, min):
max(max(0, min), min(multiplier * 2 ^ (attempt_number - 1), max)). -/
def waitExponential (multiplier mn mx : ℚ) (attempt_number : ℕ) : ℚ :=
  max (max 0 mn) (min (multiplier * 2 ^ (attempt_number - 1)) mx)

/-- wait_strategy from github_client.py: the server-given Retry-After for
abuse errors, wait_exponential(multiplier = 1, min = 2, max = 10) otherwise. -/
def waitStrategy (e : ClientExc) (attempt_number : ℕ) : ℚ :=
  match e with
  | .abuseRateLimit ra => (ra : ℚ)
  | _ => waitExponential 1 2 10 attempt_number

/-- Outcome of a retried call: the final result, the number of the attempt
that produced it, and the sleeps performed between attempts. -/
structure RetryOutcome (α : Type) where
  result : Except ClientExc α
  attemptsMade : ℕ
  waits : List ℚ
  deriving Repr

/-- The tenacity loop: run the attempt; on success stop; on failure, if the
exception satisfies the retry predicate and retries remain, wait per
wait_strategy and try again, else surface the exception.  retriesLeft is the
number of further attempts the stop condition still allows. -/
def retryLoop (act : ℕ → Except ClientExc α) :
    ℕ → ℕ → List ℚ → RetryOutcome α
  | retriesLeft, attemptNo, ws =>
    match act attemptNo, retriesLeft with
    | .ok a, _ => { result := .ok a, attemptsMade := attemptNo, waits := ws }
    | .error e, 0 => { result := .error e, attemptsMade := attemptNo, waits := ws }
    | .error e, r + 1 =>
      if retryPredicate e then
        retryLoop act r (attemptNo + 1) (ws ++ [waitStrategy e attemptNo])
      else
        { result := .error e, attemptsMade := attemptNo, waits := ws }

/-- search_repos under its decorator stop_after_attempt(5): one initial
attempt plus at most four retries. -/
def searchWithRetry (act : ℕ → Except ClientExc α) : RetryOutcome α :=
  retryLoop act 4 1 []

/- ===================== Segment Planner (crawler.py) ===================== -/

/-- Ranges processed directly (crawler.py SIMPLE_STAR_RANGES). -/
def SIMPLE_STAR_RANGES : List String :=
  ["stars:>100000", "stars:50001..100000"]

/-- Ranges needing secondary date segmentation. -/
def DATE_SEGMENTED_STAR_RANGES : List String :=
  ["stars:10001..50000", "stars:1001..10000", "stars:101..1000",
   "stars:51..100", "stars:11..50", "stars:1..10"]

/-- calendar.isleap. -/
def leapYear (y : ℕ) : Bool :=
  y % 4 == 0 && (y % 100 != 0 || y % 400 == 0)

/-- calendar.monthrange(year, month)[1]: the number of days in the month. -/
def monthDays (y m : ℕ) : ℕ :=
  if m = 2 then (if leapYear y then 29 else 28)
  else if m = 4 ∨ m = 6 ∨ m = 9 ∨ m = 11 then 30
  else 31

/-- Python format spec 02d. -/
def pad2 (n : ℕ) : String :=
  if n < 10 then "0" ++ toString n else toString n

/-- The combined query string for one star band and one month window,
spanning day 01 through the last day of the month (month_start_day = 1,
month_end_day = calendar.monthrange(year, month)[1]). -/
def dateQuery (starQuery : String) (y m : ℕ) : String :=
  starQuery ++ " created:" ++ toString y ++ "-" ++ pad2 m ++ "-" ++ pad2 1 ++
    ".." ++ toString y ++ "-" ++ pad2 m ++ "-" ++ pad2 (monthDays y m)

/-- list(range(2008, current_year + 1)). -/
def yearsToProcess (currentYear : ℕ) : List ℕ :=
  List.range' 2008 (currentYear + 1 - 2008)

/-- range(1, current_month + 1) if year == current_year else range(1, 13). -/
def monthsThisYear (currentYear currentMonth y : ℕ) : List ℕ :=
  if y = currentYear then List.range' 1 currentMonth else List.range' 1 12

/-- The query list AsyncCrawler.run generates: the two simple star ranges,
then for every date-segmented star range, for every year in reversed order,
for every month of that year in reversed order, the month-window query. -/
def generateQueries (currentYear currentMonth : ℕ) : List String :=
  SIMPLE_STAR_RANGES ++
    DATE_SEGMENTED_STAR_RANGES.flatMap (fun starQuery =>
      ((yearsToProcess currentYear).reverse).flatMap (fun y =>
        ((monthsThisYear currentYear currentMonth y).reverse).map
          (fun m => dateQuery starQuery y m)))

/-- The descending enumeration hi, hi - 1, ..., lo. -/
def descendingFrom (hi lo : ℕ) : List ℕ :=
  (List.range (hi + 1 - lo)).map (fun i => hi - i)

/-- Modelled from the wording of the spec (section 4.3): the two simple
high-star-band queries first; then for each date-segmented star band, one
query per month window, years descending from the current year down to 2008,
months descending within each year, the current year capped at the current
month, each window running from the first to the last calendar day. -/
def specQueries (currentYear currentMonth : ℕ) : List String :=
  SIMPLE_STAR_RANGES ++
    DATE_SEGMENTED_STAR_RANGES.flatMap (fun starQuery =>
      (descendingFrom currentYear 2008).flatMap (fun y =>
        (descendingFrom (if y = currentYear then currentMonth else 12) 1).map
          (fun m => dateQuery starQuery y m)))

/- ===================== Segment Runner, executable model ===================== -/

/-- Limit for results per specific query (crawler.py MAX_RESULTS_PER_QUERY). -/
def MAX_RESULTS_PER_QUERY : ℕ := 980

/-- Sequential state of AsyncCrawler._process_segment paginating one query
against a remote whose underlying data for this query holds remaining
records and serves each request with min(batch, remaining) of them. -/
structure SegRun where
  fetched : ℕ
  target : ℕ
  batchCfg : ℕ
  stopSet : Bool
  segFetched : ℕ
  remaining : ℕ
  deriving DecidableEq, Repr

/-- The batch size requested for the next page: first clamped by the
remaining per-segment cap, then by the remaining global target plus one. -/
def segBatch (s : SegRun) : ℕ :=
  min (min s.batchCfg (MAX_RESULTS_PER_QUERY - s.segFetched))
    (s.target - s.fetched + 1)

/-- The while loop of _process_segment, one segment run in isolation:
check the stop event, then the global target (setting the stop event on
crossing), then the per-segment cap; compute the clamped batch, fetch,
persist, update the counters and the stop event, and continue while the
platform reports more pages.  fuel bounds the page count for totality. -/
def runSegment : ℕ → SegRun → SegRun
  | 0, s => s
  | fuel + 1, s =>
    if s.stopSet then s
    else if s.target ≤ s.fetched then { s with stopSet := true }
    else if MAX_RESULTS_PER_QUERY ≤ s.segFetched then s
    else
      let b := segBatch s
      if b = 0 then s
      else
        let count := min b s.remaining
        if count = 0 then s
        else
          let s2 : SegRun :=
            { s with
              fetched := s.fetched + count
              segFetched := s.segFetched + count
              remaining := s.remaining - count
              stopSet := s.stopSet || decide (s.target ≤ s.fetched + count) }
          if s.remaining - count = 0 then s2 else runSegment fuel s2

/- ===================== Crawl Scheduler, interleaving model ===================== -/

/-- Terminal states of one segment (spec section 4.4). -/
inductive TermReason where
  | exhausted
  | cappedOut
  | targetReached
  | stoppedExternally
  | failed
  deriving DecidableEq, Repr

/-- Where one segment runner stands: at the top of its while loop, inside a
page fetch of a given requested batch, or terminated. -/
inductive Phase where
  | checkpoint
  | fetching (batch : ℕ)
  | done (r : TermReason)
  deriving DecidableEq, Repr

/-- The shared crawl session state: the global fetched counter, the target,
the configured page size and the stop event. -/
structure Global where
  fetched : ℕ
  target : ℕ
  batchCfg : ℕ
  stop : Bool
  deriving DecidableEq, Repr

/-- self.fetched = 0; self.stop_event.clear() at the top of run(). -/
def runInit (g : Global) : Global :=
  { g with fetched := 0, stop := false }

/-- The whole system: the shared state plus each running segment phase and
per-segment fetched count. -/
structure Sys (n : ℕ) where
  g : Global
  phase : Fin n → Phase
  segCount : Fin n → ℕ

/-- The clamped batch a segment computes at its checkpoint. -/
def checkpointBatch (g : Global) (segCount : ℕ) : ℕ :=
  min (min g.batchCfg (MAX_RESULTS_PER_QUERY - segCount))
    (g.target - g.fetched + 1)

/-- Observable events of the interleaved crawl. -/
inductive Label (n : ℕ) where
  | halt (i : Fin n) (r : TermReason)
  | startFetch (i : Fin n) (batch : ℕ)
  | fetchFail (i : Fin n)
  | emptyPage (i : Fin n)
  | persistFail (i : Fin n)
  | finishPage (i : Fin n) (count : ℕ) (hasNext : Bool)
  deriving DecidableEq, Repr

/-- The segment an event belongs to. -/
def labelSeg : Label n → Fin n
  | .halt i _ => i
  | .startFetch i _ => i
  | .fetchFail i => i
  | .emptyPage i => i
  | .persistFail i => i
  | .finishPage i _ _ => i

/-- One atomic step of the cooperative scheduler.  Each constructor is one
await-free region of _process_segment; the checkpoint constructors follow
the exact order of its guards. -/
inductive Step : Sys n → Label n → Sys n → Prop where
  | haltStopped {s : Sys n} {i : Fin n} :
      s.phase i = .checkpoint → s.g.stop = true →
      Step s (.halt i .stoppedExternally)
        { s with phase := Function.update s.phase i (.done .stoppedExternally) }
  | haltTarget {s : Sys n} {i : Fin n} :
      s.phase i = .checkpoint → s.g.stop = false → s.g.target ≤ s.g.fetched →
      Step s (.halt i .targetReached)
        { s with
          g := { s.g with stop := true }
          phase := Function.update s.phase i (.done .targetReached) }
  | haltCapped {s : Sys n} {i : Fin n} :
      s.phase i = .checkpoint → s.g.stop = false → s.g.fetched < s.g.target →
      MAX_RESULTS_PER_QUERY ≤ s.segCount i →
      Step s (.halt i .cappedOut)
        { s with phase := Function.update s.phase i (.done .cappedOut) }
  | haltZeroBatch {s : Sys n} {i : Fin n} :
      s.phase i = .checkpoint → s.g.stop = false → s.g.fetched < s.g.target →
      s.segCount i < MAX_RESULTS_PER_QUERY →
      checkpointBatch s.g (s.segCount i) = 0 →
      Step s (.halt i .exhausted)
        { s with phase := Function.update s.phase i (.done .exhausted) }
  | startFetch {s : Sys n} {i : Fin n} :
      s.phase i = .checkpoint → s.g.stop = false → s.g.fetched < s.g.target →
      s.segCount i < MAX_RESULTS_PER_QUERY →
      checkpointBatch s.g (s.segCount i) ≠ 0 →
      Step s (.startFetch i (checkpointBatch s.g (s.segCount i)))
        { s with
          phase := Function.update s.phase i (.fetching (checkpointBatch s.g (s.segCount i))) }
  | fetchFail {s : Sys n} {i : Fin n} {b : ℕ} :
      s.phase i = .fetching b →
      Step s (.fetchFail i)
        { s with phase := Function.update s.phase i (.done .failed) }
  | emptyPage {s : Sys n} {i : Fin n} {b : ℕ} :
      s.phase i = .fetching b →
      Step s (.emptyPage i)
        { s with phase := Function.update s.phase i (.done .exhausted) }
  | persistFail {s : Sys n} {i : Fin n} {b : ℕ} :
      s.phase i = .fetching b →
      Step s (.persistFail i)
        { s with phase := Function.update s.phase i (.done .failed) }
  | finishPage {s : Sys n} {i : Fin n} {b count : ℕ} {hasNext : Bool} :
      s.phase i = .fetching b → 0 < count → count ≤ b →
      Step s (.finishPage i count hasNext)
        { s with
          g := { s.g with
                 fetched := s.g.fetched + count
                 stop := s.g.stop || decide (s.g.target ≤ s.g.fetched + count) }
          phase := Function.update s.phase i
            (if hasNext then .checkpoint else .done .exhausted)
          segCount := Function.update s.segCount i (s.segCount i + count) }

/-- A finite interleaved execution with its event list. -/
inductive Trace : Sys n → List (Label n) → Sys n → Prop where
  | nil {s : Sys n} : Trace s [] s
  | cons {s t u : Sys n} {l : Label n} {ls : List (Label n)} :
      Step s l t → Trace t ls u → Trace s (l :: ls) u

/-- The number of records an event persists. -/
def persistCount : Label n → ℕ
  | .finishPage _ count _ => count
  | _ => 0

/-- The total number of records a trace persists. -/
def persistSum (ls : List (Label n)) : ℕ :=
  (ls.map persistCount).sum

/-- Whether an event is a page persisted by segment i. -/
def isPersistOf (i : Fin n) : Label n → Bool
  | .finishPage j _ _ => j == i
  | _ => false

/-- How many pages of segment i a trace persists. -/
def pagesOf (i : Fin n) (ls : List (Label n)) : ℕ :=
  ls.countP (isPersistOf i)

/- ===================== Concrete test fixtures ===================== -/

/-- The limiter as github_client.py builds it: capacity
min(bucket_capacity = 200, 1000) = 200, refill 2000 points per minute. -/
def clientLimiter0 : LimiterState := limiterInit 200 2000 0

/-- A concrete successful response whose reported actual cost is 3. -/
def respSuccess : HttpResponse :=
  { status := 200
    bodyMentionsAbuse := false
    retryAfterHeader := none
    pageEndCursor := some "Y3Vyc29yOjEwMA=="
    pageHasNextPage := true
    nodes := [{ id := 1, nameWithOwner := "octocat/hello", stargazerCount := 42 }]
    rateLimitCost := 3
    rateLimitRemaining := 4997 }

/-- A concrete plain HTTP error response (status 404, no abuse signal). -/
def resp404 : HttpResponse :=
  { status := 404
    bodyMentionsAbuse := false
    retryAfterHeader := none
    pageEndCursor := none
    pageHasNextPage := false
    nodes := []
    rateLimitCost := 1
    rateLimitRemaining := 4999 }

/-- A mock client failing with the abuse rate limit error carrying
retryAfter = 5 on the first attempt, then succeeding. -/
def actAbuseOnce : ℕ → Except ClientExc GithubPage := fun n =>
  if n = 1 then .error (.abuseRateLimit 5) else .ok (parsePage respSuccess)

/-- A mock client failing with a transport error on every attempt. -/
def actTransportAlways : ℕ → Except ClientExc GithubPage := fun _ =>
  .error .transport

/-- A mock client hitting a plain 404 on every attempt. -/
def act404Always : ℕ → Except ClientExc GithubPage := fun _ =>
  .error (.httpStatus 404)

/-- The segment-runner scenario of the cap-enforcement property: page size
100, a large global target, underlying data of 2000 records. -/
def seg2000 : SegRun :=
  { fetched := 0
    target := 100000
    batchCfg := 100
    stopSet := false
    segFetched := 0
    remaining := 2000 }

/-- How many further pages a segment may still persist: one if it is inside
a fetch, none otherwise. -/
def fetchBudget : Phase → ℕ
  | .fetching _ => 1
  | _ => 0

/-- A one-segment system that has already crossed its target. -/
def sysCrossed : Sys 1 :=
  { g := { fetched := 5, target := 3, batchCfg := 100, stop := false }
    phase := fun _ => Phase.checkpoint
    segCount := fun _ => 0 }

/-- The state after that segment observes the crossing at its checkpoint. -/
def sysCrossedHalted : Sys 1 :=
  { g := { fetched := 5, target := 3, batchCfg := 100, stop := true }
    phase := Function.update sysCrossed.phase 0 (Phase.done .targetReached)
    segCount := fun _ => 0 }

/-- A two-segment system with segment 0 inside a fetch of batch 50. -/
def sysTwoSeg : Sys 2 :=
  { g := { fetched := 10, target := 1000, batchCfg := 100, stop := false }
    phase := fun j => if j = 0 then Phase.fetching 50 else Phase.checkpoint
    segCount := fun j => if j = 0 then 10 else 0 }

/-- The state after the fetch of segment 0 fails. -/
def sysTwoSegFailed : Sys 2 :=
  { sysTwoSeg with
    phase := Function.update sysTwoSeg.phase 0 (Phase.done .failed) }

/-- A fresh one-segment system as run() initializes it. -/
def sysFresh : Sys 1 :=
  { g := { fetched := 0, target := 0, batchCfg := 100, stop := false }
    phase := fun _ => Phase.checkpoint
    segCount := fun _ => 0 }

/-- The fresh system after its lone segment observes target 0 is already
met. -/
def sysFreshHalted : Sys 1 :=
  { g := { fetched := 0, target := 0, batchCfg := 100, stop := true }
    phase := Function.update sysFresh.phase 0 (Phase.done .targetReached)
    segCount := fun _ => 0 }

/- ===================== Rate governor lemmas ===================== -/

theorem refill_capacity (s : LimiterState) (now : ℚ) :
    (refill s now).capacity = s.capacity := rfl

theorem refill_rate_eq (s : LimiterState) (now : ℚ) :
    (refill s now).refillRate = s.refillRate := rfl

theorem refill_tokens_le (s : LimiterState) (now : ℚ) :
    (refill s now).tokens ≤ s.capacity :=
  min_le_left _ _


/-- A successful pass through the acquire loop preserves the bucket geometry
and debits exactly the cost from an available level that satisfied the guard. -/
theorem acquireLoop_spec (cost : ℚ) :
    ∀ (fuel : ℕ) (s r : LimiterState),
      s.tokens ≤ s.capacity →
      acquireLoop cost fuel s = some r →
      r.capacity = s.capacity ∧ r.refillRate = s.refillRate ∧
      ∃ avail, cost ≤ avail ∧ avail ≤ s.capacity ∧ r.tokens = avail - cost := by
  intro fuel
  induction fuel with
  | zero =>
    intro s r _ h
    simp [acquireLoop] at h
  | succ fuel ih =>
    intro s r hcap h
    by_cases hlt : s.tokens < cost
    · rw [acquireLoop, if_pos hlt] at h
      have h2 := ih _ r (refill_tokens_le _ _) h
      rcases h2 with ⟨hc, hrr, avail, ha1, ha2, ha4⟩
      rw [refill_capacity] at hc ha2
      rw [refill_rate_eq] at hrr
      exact ⟨hc, hrr, avail, ha1, ha2, ha4⟩
    · rw [acquireLoop, if_neg hlt] at h
      cases h
      exact ⟨rfl, rfl, s.tokens, not_lt.mp hlt, hcap, rfl⟩

/-- Invariant preservation for one acquire call (the state is unchanged if
the fuel bound is hit). -/
theorem acquireD_inv (s : LimiterState) (now cost : ℚ) (fuel : ℕ)
    (hinv : LimiterInv s) (hcost : 0 ≤ cost) :
    LimiterInv (acquireD s now cost fuel) ∧
      (acquireD s now cost fuel).capacity = s.capacity := by
  rcases hinv with ⟨h0, hcap⟩
  unfold acquireD acquire
  cases hopt : acquireLoop cost fuel (refill s now) with
  | none => exact ⟨⟨h0, hcap⟩, rfl⟩
  | some r =>
    have h2 := acquireLoop_spec cost fuel _ r (refill_tokens_le _ _) hopt
    rcases h2 with ⟨hc, _, avail, ha1, ha2, ha4⟩
    rw [refill_capacity] at hc ha2
    refine ⟨⟨?_, ?_⟩, hc⟩
    · rw [Option.getD_some, ha4]; linarith
    · rw [Option.getD_some, ha4, hc]; linarith

/-- The bucket invariant holds after any sequence of acquires with
non-negative costs. -/
theorem runCalls_inv (fuel : ℕ) :
    ∀ (calls : List (ℚ × ℚ)) (s : LimiterState),
      LimiterInv s → (∀ p ∈ calls, 0 ≤ p.2) →
      LimiterInv (runCalls fuel s calls) := by
  intro calls
  induction calls with
  | nil => intro s hinv _; exact hinv
  | cons p rest ih =>
    intro s hinv hcosts
    obtain ⟨now, cost⟩ := p
    have hco : 0 ≤ cost := hcosts (now, cost) (List.mem_cons_self _ _)
    have h1 := acquireD_inv s now cost fuel hinv hco
    rw [runCalls]
    exact ih _ h1.1 (fun q hq => hcosts q (List.mem_cons_of_mem _ hq))

/-- C6: for every sequence of acquire calls with non-negative costs, the
token count never exceeds capacity and never becomes negative (the lazy
refill adds elapsed times rate tokens capped at capacity); and every
successful acquire debits exactly its cost, and only from a token level
that had reached the cost. -/
theorem C6_token_bucket_invariant
    (fuel : ℕ) (calls : List (ℚ × ℚ)) (s : LimiterState)
    (hinv : LimiterInv s) (hcosts : ∀ p ∈ calls, 0 ≤ p.2) :
    (0 ≤ (runCalls fuel s calls).tokens ∧
      (runCalls fuel s calls).tokens ≤ (runCalls fuel s calls).capacity) ∧
    (∀ (t r : LimiterState) (now cost : ℚ) (f : ℕ),
      t.tokens ≤ t.capacity →
      acquire t now cost f = some r →
      ∃ avail, cost ≤ avail ∧ avail ≤ t.capacity ∧ r.tokens = avail - cost) := by
  constructor
  · exact runCalls_inv fuel calls s hinv hcosts
  · intro t r now cost f hcap hacq
    unfold acquire at hacq
    have h2 := acquireLoop_spec cost f _ r (refill_tokens_le _ _) hacq
    rcases h2 with ⟨_, _, avail, ha1, ha2, ha4⟩
    exact ⟨avail, ha1, (refill_capacity t now) ▸ ha2, ha4⟩

/-- C6 witness: a concrete two-call sequence on the limiter as the client
builds it. -/
theorem C6_token_bucket_invariant_witness :
    0 ≤ (runCalls 2 (limiterInit 200 2000 0) [(0, 1), (1, 5)]).tokens ∧
      (runCalls 2 (limiterInit 200 2000 0) [(0, 1), (1, 5)]).tokens ≤
        (runCalls 2 (limiterInit 200 2000 0) [(0, 1), (1, 5)]).capacity :=
  (C6_token_bucket_invariant 2 [(0, 1), (1, 5)] (limiterInit 200 2000 0)
    (by constructor <;> norm_num [limiterInit, LimiterInv])
    (by intro p hp; fin_cases hp <;> norm_num)).1

/-- When the requested cost exceeds the bucket capacity, the capped refill
can never make the guard pass, so the wait loop never exits. -/
theorem acquireLoop_none_of_cap_lt (cost : ℚ) :
    ∀ (fuel : ℕ) (s : LimiterState), s.capacity < cost → s.tokens ≤ s.capacity →
      acquireLoop cost fuel s = none := by
  intro fuel
  induction fuel with
  | zero => intro s _ _; rfl
  | succ fuel ih =>
    intro s hcap htok
    rw [acquireLoop, if_pos (lt_of_le_of_lt htok hcap)]
    exact ih _ hcap (refill_tokens_le _ _)

/-- C7 (amended): for every cost at most the bucket capacity, acquire cannot
fail but only delay: it returns after at most one exactly-computed sleep
(fuel 2 suffices in the exact-arithmetic model), having debited exactly the
cost.  (Costs above capacity, which this program never requests, make the
loop spin forever; see the counterexample.) -/
theorem C7_acquire_within_capacity_returns (s : LimiterState) (now cost : ℚ)
    (hr : 0 < s.refillRate) (hcost : cost ≤ s.capacity) :
    ∃ r, acquire s now cost LIMITER_FUEL = some r ∧
      ∃ avail, cost ≤ avail ∧ r.tokens = avail - cost := by
  unfold acquire LIMITER_FUEL
  by_cases hlt : (refill s now).tokens < cost
  · rw [show (2 : ℕ) = 1 + 1 from rfl, acquireLoop, if_pos hlt]
    have h2 : (refill (refill s now)
        ((refill s now).updated +
          (cost - (refill s now).tokens) / (refill s now).refillRate)).tokens = cost := by
      show min (refill s now).capacity
        ((refill s now).tokens +
          ((refill s now).updated +
              (cost - (refill s now).tokens) / (refill s now).refillRate -
            (refill s now).updated) * (refill s now).refillRate) = cost
      rw [add_sub_cancel_left,
        div_mul_cancel₀ _ (show (refill s now).refillRate ≠ 0 from ne_of_gt hr)]
      have h3 : (refill s now).tokens + (cost - (refill s now).tokens) = cost := by ring
      rw [h3]
      exact min_eq_right hcost
    rw [show (1 : ℕ) = 0 + 1 from rfl, acquireLoop,
      if_neg (by rw [h2]; exact lt_irrefl cost)]
    exact ⟨_, rfl, cost, le_refl cost, by rw [h2]⟩
  · rw [show (2 : ℕ) = 1 + 1 from rfl, acquireLoop, if_neg hlt]
    exact ⟨_, rfl, (refill s now).tokens, not_lt.mp hlt, rfl⟩

/-- C7 witness: the limiter as tuned for the secondary limit grants a cost
of 150 within the fuel bound. -/
theorem C7_acquire_within_capacity_returns_witness :
    ∃ r, acquire (limiterInit 200 2000 0) 5 150 LIMITER_FUEL = some r ∧
      ∃ avail, (150 : ℚ) ≤ avail ∧ r.tokens = avail - 150 :=
  C7_acquire_within_capacity_returns (limiterInit 200 2000 0) 5 150
    (by norm_num [limiterInit]) (by norm_num [limiterInit])

/-- C7 counterexample: acquire does not return for every cost.  On the
bucket the client builds (capacity 200), a call requesting 201 tokens
spins in the wait loop forever: no fuel bound makes it return, because the
lazy refill is capped at capacity 200 < 201. -/
theorem C7_counterexample :
    ¬ ∃ (fuel : ℕ) (r : LimiterState),
        acquire (limiterInit 200 2000 0) 0 201 fuel = some r := by
  rintro ⟨fuel, r, h⟩
  rw [acquire, acquireLoop_none_of_cap_lt 201 fuel _
    (by norm_num [limiterInit, refill]) (refill_tokens_le _ _)] at h
  exact Option.noConfusion h

/- ===================== C1: governor charging in search_repos ===================== -/

/-- C1 counterexample: on a successful call reporting actual cost 3 the
governor is NOT debited estimate plus actual cost.  The bucket starts at
200 tokens; after the call it holds 199 (only the pre-acquired estimate of
1), not 196. -/
theorem C1_counterexample :
    (searchReposOnce clientLimiter0 0 respSuccess).2.tokens = 199 ∧
      (searchReposOnce clientLimiter0 0 respSuccess).1 =
        .ok (parsePage respSuccess) ∧
      (parsePage respSuccess).cost = 3 ∧
      (searchReposOnce clientLimiter0 0 respSuccess).2.tokens ≠
        clientLimiter0.tokens -
          (PRE_ACQUIRE_COST + (respSuccess.rateLimitCost : ℚ)) := by
  refine ⟨?_, ?_, rfl, ?_⟩ <;>
    norm_num [searchReposOnce, respSuccess, clientLimiter0, limiterInit,
      acquireD, acquire, acquireLoop, refill, PRE_ACQUIRE_COST, LIMITER_FUEL]

/-- C1 (amended): one successful search_repos call charges the governor
exactly once, with the fixed estimated PRE_ACQUIRE_COST acquired before the
request; the actual reported cost from the rateLimit.cost field is parsed
into the returned page but never acquired from the token bucket. -/
theorem C1_single_charge (s : LimiterState) (now : ℚ) (r : HttpResponse)
    (h : r.status < 400) :
    searchReposOnce s now r =
      (.ok (parsePage r), acquireD s now PRE_ACQUIRE_COST LIMITER_FUEL) ∧
    (parsePage r).cost = r.rateLimitCost := by
  have h1 : (r.status == 403) = false := by
    rw [beq_eq_false_iff_ne]
    omega
  have h2 : ¬ 400 ≤ r.status := by omega
  exact ⟨by simp [searchReposOnce, h1, h2], rfl⟩

/-- C1 witness: the single-charge theorem applied at the concrete success
response. -/
theorem C1_single_charge_witness :
    searchReposOnce clientLimiter0 0 respSuccess =
      (.ok (parsePage respSuccess),
        acquireD clientLimiter0 0 PRE_ACQUIRE_COST LIMITER_FUEL) ∧
    (parsePage respSuccess).cost = respSuccess.rateLimitCost :=
  C1_single_charge clientLimiter0 0 respSuccess (by norm_num [respSuccess])

/- ===================== C2: HTTP errors under the retry policy ===================== -/

/-- C2 counterexample: a plain 404 response raises the generic HTTP error,
but that error IS retried: with every attempt failing the same way the call
makes 5 attempts (with backoff waits in between) instead of surfacing on
the first attempt. -/
theorem C2_counterexample :
    (searchReposOnce clientLimiter0 0 resp404).1 = .error (.httpStatus 404) ∧
      retryPredicate (.httpStatus 404) = true ∧
      (searchWithRetry act404Always).attemptsMade = 5 ∧
      (searchWithRetry act404Always).attemptsMade ≠ 1 := by
  refine ⟨?_, rfl, ?_, ?_⟩ <;>
    norm_num [searchReposOnce, resp404, searchWithRetry, retryLoop,
      act404Always, retryPredicate, isAiohttpClientError]

/-- C2 (amended): a response with a non-success status that is neither a
transport failure nor an abuse signal raises the generic HTTP error
(ClientResponseError from raise_for_status); because ClientResponseError
derives from aiohttp.ClientError, the retry predicate MATCHES it, so the
error is retried up to the 5-attempt ceiling and surfaces only then, not on
the first attempt. -/
theorem C2_http_error_is_retried (s : LimiterState) (now : ℚ)
    (r : HttpResponse) (h400 : 400 ≤ r.status)
    (habuse : ¬ (r.status = 403 ∧ r.bodyMentionsAbuse = true ∧
      ∃ k, r.retryAfterHeader = some (some k))) :
    (searchReposOnce s now r).1 = .error (.httpStatus r.status) ∧
      retryPredicate (.httpStatus r.status) = true ∧
      ∀ act : ℕ → Except ClientExc GithubPage,
        (∀ n, act n = .error (.httpStatus r.status)) →
        (searchWithRetry act).result = .error (.httpStatus r.status) ∧
          (searchWithRetry act).attemptsMade = 5 := by
  refine ⟨?_, rfl, ?_⟩
  · unfold searchReposOnce
    by_cases h403 : (r.status == 403 && r.bodyMentionsAbuse) = true
    · rw [if_pos h403]
      rw [Bool.and_eq_true, beq_iff_eq] at h403
      cases hh : r.retryAfterHeader with
      | none => simp
      | some o =>
        cases o with
        | none => simp
        | some k => exact absurd ⟨h403.1, h403.2, k, hh⟩ habuse
    · rw [if_neg h403, if_pos h400]
  · intro act hact
    constructor <;>
      simp [searchWithRetry, retryLoop, hact, retryPredicate,
        isAiohttpClientError]

/-- C2 witness: the amended theorem applied at the concrete 404 response. -/
theorem C2_http_error_is_retried_witness :
    (searchReposOnce clientLimiter0 0 resp404).1 = .error (.httpStatus 404) ∧
      retryPredicate (.httpStatus 404) = true ∧
      ∀ act : ℕ → Except ClientExc GithubPage,
        (∀ n, act n = .error (.httpStatus 404)) →
        (searchWithRetry act).result = .error (.httpStatus 404) ∧
          (searchWithRetry act).attemptsMade = 5 :=
  C2_http_error_is_retried clientLimiter0 0 resp404 (by norm_num [resp404])
    (by norm_num [resp404])

/- ===================== C3: wait schedule of the retry policy ===================== -/

set_option maxHeartbeats 2000000 in
/-- C3 counterexample: under repeated transport errors the waits are
2, 2, 4, 8 — the first two waits are equal (both clamped up to the
configured minimum of 2), so the successive waits do NOT strictly increase,
and the configured cap of 10 is never reached. -/
theorem C3_counterexample :
    (searchWithRetry actTransportAlways).waits = [2, 2, 4, 8] ∧
      ¬ List.Chain' (fun a b => a < b) (searchWithRetry actTransportAlways).waits := by
  have h : (searchWithRetry actTransportAlways).waits = [2, 2, 4, 8] := by
    norm_num [searchWithRetry, retryLoop, actTransportAlways, retryPredicate,
      isAiohttpClientError, waitStrategy, waitExponential]
  refine ⟨h, ?_⟩
  rw [h]
  norm_num [List.chain'_cons]

set_option maxHeartbeats 2000000 in
/-- C3 (amended): with the abuse error carrying retryAfter = 5 once and then
success, the single wait is exactly 5 seconds (not exponential backoff);
with every attempt failing with a transport error, the waits follow the
clamped exponential schedule 2, 2, 4, 8 — non-decreasing and bounded by the
configured cap of 10, though not strictly increasing — and the call fails
permanently after the 5th attempt, surfacing the transport error. -/
theorem C3_retry_wait_schedule :
    ((searchWithRetry actAbuseOnce).waits = [5] ∧
      (searchWithRetry actAbuseOnce).result = .ok (parsePage respSuccess) ∧
      (searchWithRetry actAbuseOnce).attemptsMade = 2) ∧
    ((searchWithRetry actTransportAlways).waits = [2, 2, 4, 8] ∧
      (searchWithRetry actTransportAlways).result = .error .transport ∧
      (searchWithRetry actTransportAlways).attemptsMade = 5 ∧
      List.Chain' (fun a b => a ≤ b) (searchWithRetry actTransportAlways).waits ∧
      ∀ w ∈ (searchWithRetry actTransportAlways).waits, w ≤ 10) := by
  have ha : searchWithRetry actAbuseOnce =
      { result := .ok (parsePage respSuccess), attemptsMade := 2, waits := [5] } := by
    norm_num [searchWithRetry, retryLoop, actAbuseOnce, retryPredicate,
      isAiohttpClientError, waitStrategy, waitExponential]
  have ht : searchWithRetry actTransportAlways =
      { result := .error .transport, attemptsMade := 5, waits := [2, 2, 4, 8] } := by
    norm_num [searchWithRetry, retryLoop, actTransportAlways, retryPredicate,
      isAiohttpClientError, waitStrategy, waitExponential]
  rw [ha, ht]
  norm_num [List.chain'_cons]

/- ===================== C5: per-segment cap enforcement ===================== -/

/-- The per-segment cap is preserved by the pagination loop: each requested
batch is clamped by the remaining per-segment allowance, so the fetched
count can never pass the cap. -/
theorem runSegment_cap_aux :
    ∀ (fuel : ℕ) (s : SegRun), s.segFetched ≤ MAX_RESULTS_PER_QUERY →
      (runSegment fuel s).segFetched ≤ MAX_RESULTS_PER_QUERY := by
  intro fuel
  induction fuel with
  | zero => intro s h; exact h
  | succ fuel ih =>
    intro s h
    simp only [runSegment]
    split_ifs with h1 h2 h3 h4 h5 h6
    · exact h
    · exact h
    · exact h
    · exact h
    · exact h
    · have hb : segBatch s ≤ MAX_RESULTS_PER_QUERY - s.segFetched :=
        le_trans (min_le_left _ _) (min_le_right _ _)
      have hc : min (segBatch s) s.remaining ≤ segBatch s := min_le_left _ _
      simp only [SegRun.mk.injEq]
      omega
    · have hb : segBatch s ≤ MAX_RESULTS_PER_QUERY - s.segFetched :=
        le_trans (min_le_left _ _) (min_le_right _ _)
      have hc : min (segBatch s) s.remaining ≤ segBatch s := min_le_left _ _
      exact ih _ (by simp only []; omega)

/-- C5: the per-segment fetched count never exceeds the enforced cap of 980:
the runner stops before fetching once the count has reached the cap, each
requested batch is the minimum of the configured page size, the remaining
per-segment cap and the remaining global target plus one, and a segment over
underlying data of 2000 records stops pagination at exactly 980 fetched even
though more pages were available. -/
theorem C5_per_segment_cap :
    (∀ (fuel : ℕ) (s : SegRun), s.segFetched ≤ MAX_RESULTS_PER_QUERY →
      (runSegment fuel s).segFetched ≤ MAX_RESULTS_PER_QUERY) ∧
    (∀ s : SegRun, segBatch s =
      min s.batchCfg (min (MAX_RESULTS_PER_QUERY - s.segFetched)
        (s.target - s.fetched + 1))) ∧
    (runSegment 20 seg2000).segFetched = 980 ∧
    (runSegment 20 seg2000).remaining ≠ 0 := by
  refine ⟨runSegment_cap_aux, ?_, ?_, ?_⟩
  · intro s
    unfold segBatch
    omega
  · decide
  · decide

/-- C5 witness: the cap bound applied to the concrete 2000-record segment. -/
theorem C5_per_segment_cap_witness :
    (runSegment 20 seg2000).segFetched ≤ MAX_RESULTS_PER_QUERY :=
  C5_per_segment_cap.1 20 seg2000 (by decide)

/- ===================== C9: planner query order ===================== -/

/-- Reversing an ascending block enumerates it descending. -/
theorem range'_reverse_eq_map :
    ∀ (n lo k : ℕ), lo + n = k + 1 →
      (List.range' lo n).reverse = (List.range n).map (fun i => k - i) := by
  intro n
  induction n with
  | zero => intro lo k _; simp
  | succ n ih =>
    intro lo k hk
    rw [List.range'_succ, List.reverse_cons, List.range_succ, List.map_append,
      ih (lo + 1) k (by omega)]
    have h2 : k - n = lo := by omega
    simp [h2]

/-- The descending enumeration is the reverse of the ascending range the
code reverses. -/
theorem descendingFrom_eq (hi lo : ℕ) :
    descendingFrom hi lo = (List.range' lo (hi + 1 - lo)).reverse := by
  by_cases h : lo ≤ hi + 1
  · rw [descendingFrom, range'_reverse_eq_map (hi + 1 - lo) lo hi (by omega)]
  · have h0 : hi + 1 - lo = 0 := by omega
    rw [descendingFrom, h0]
    simp

/-- C9: the generated query list is exactly the list the spec describes —
the two simple high-star-band queries first, then for each date-segmented
star band one query per month window in most-recent-first order (years
descending to 2008, months descending within each year, the current year
capped at the current month), each window spanning the first through the
last calendar day of its month. -/
theorem C9_planner_order (currentYear currentMonth : ℕ) :
    generateQueries currentYear currentMonth =
        specQueries currentYear currentMonth ∧
      (generateQueries currentYear currentMonth).take 2 = SIMPLE_STAR_RANGES := by
  constructor
  · unfold generateQueries specQueries yearsToProcess monthsThisYear
    simp only [descendingFrom_eq, Nat.add_sub_cancel,
      apply_ite (fun n => List.range' 1 n 1), apply_ite List.reverse]
  · simp [generateQueries, SIMPLE_STAR_RANGES]

/- ===================== Scheduler step lemmas ===================== -/

/-- The global fetched counter never decreases across a step. -/
theorem step_fetched_mono {n : ℕ} {s t : Sys n} {l : Label n}
    (h : Step s l t) : s.g.fetched ≤ t.g.fetched := by
  cases h <;> simp

/-- The target is fixed for the whole run. -/
theorem step_target_fixed {n : ℕ} {s t : Sys n} {l : Label n}
    (h : Step s l t) : t.g.target = s.g.target := by
  cases h <;> rfl

/-- A fetch only starts while the global count is still under target. -/
theorem Step.startFetch_requires {n : ℕ} {s t : Sys n} {i : Fin n} {b : ℕ}
    (h : Step s (.startFetch i b) t) : s.g.fetched < s.g.target := by
  cases h
  assumption

/-- Monotonicity along whole traces. -/
theorem trace_fetched_mono {n : ℕ} {s t : Sys n} {ls : List (Label n)}
    (h : Trace s ls t) : s.g.fetched ≤ t.g.fetched := by
  induction h with
  | nil => exact le_refl _
  | cons hstep _ ih => exact le_trans (step_fetched_mono hstep) ih

theorem trace_target_fixed {n : ℕ} {s t : Sys n} {ls : List (Label n)}
    (h : Trace s ls t) : t.g.target = s.g.target := by
  induction h with
  | nil => rfl
  | cons hstep _ ih => rw [ih, step_target_fixed hstep]

/-- Once the target is crossed, no later step of any segment is a fetch
start. -/
theorem trace_no_startFetch {n : ℕ} :
    ∀ {s t : Sys n} {ls : List (Label n)}, Trace s ls t →
      s.g.target ≤ s.g.fetched →
      ∀ (i : Fin n) (b : ℕ), Label.startFetch i b ∉ ls := by
  intro s t ls h
  induction h with
  | nil => intro _ i b hmem; exact absurd hmem (List.not_mem_nil _)
  | @cons s t u l ls hstep htr ih =>
    intro htar i b hmem
    rcases List.mem_cons.mp hmem with heq | hmem2
    · subst heq
      exact absurd (Step.startFetch_requires hstep) (not_lt.mpr htar)
    · have htar2 : t.g.target ≤ t.g.fetched := by
        rw [step_target_fixed hstep]
        exact le_trans htar (step_fetched_mono hstep)
      exact ih htar2 i b hmem2

/-- Once the target is crossed, each segment persists at most one more page
(the page of the fetch it was already inside), and a segment not inside a
fetch persists nothing further. -/
theorem trace_persist_bound {n : ℕ} (i : Fin n) :
    ∀ {s t : Sys n} {ls : List (Label n)}, Trace s ls t →
      s.g.target ≤ s.g.fetched →
      pagesOf i ls ≤ fetchBudget (s.phase i) := by
  intro s t ls h
  induction h with
  | nil => intro _; simp [pagesOf]
  | @cons s t u l ls hstep htr ih =>
    intro htar
    have htar2 : t.g.target ≤ t.g.fetched := by
      rw [step_target_fixed hstep]
      exact le_trans htar (step_fetched_mono hstep)
    have ihh := ih htar2
    rw [pagesOf, List.countP_cons]
    rw [pagesOf] at ihh
    cases hstep with
    | @haltStopped j hphase hstop =>
      try dsimp only at ihh
      by_cases hij : j = i
      · subst hij
        rw [Function.update_same] at ihh
        simp only [fetchBudget] at ihh
        rw [hphase]
        simp only [fetchBudget, isPersistOf, Bool.false_eq_true, if_false]
        omega
      · rw [Function.update_noteq (fun he => hij he.symm)] at ihh
        simp only [isPersistOf, Bool.false_eq_true, if_false]
        omega
    | @haltTarget j hphase hstop htar3 =>
      try dsimp only at ihh
      by_cases hij : j = i
      · subst hij
        rw [Function.update_same] at ihh
        simp only [fetchBudget] at ihh
        rw [hphase]
        simp only [fetchBudget, isPersistOf, Bool.false_eq_true, if_false]
        omega
      · rw [Function.update_noteq (fun he => hij he.symm)] at ihh
        simp only [isPersistOf, Bool.false_eq_true, if_false]
        omega
    | @haltCapped j hphase hstop hlt hcap =>
      exact absurd hlt (not_lt.mpr htar)
    | @haltZeroBatch j hphase hstop hlt hcap hb =>
      exact absurd hlt (not_lt.mpr htar)
    | @startFetch j hphase hstop hlt hcap hb =>
      exact absurd hlt (not_lt.mpr htar)
    | @fetchFail j b hphase =>
      try dsimp only at ihh
      by_cases hij : j = i
      · subst hij
        rw [Function.update_same] at ihh
        simp only [fetchBudget] at ihh
        rw [hphase]
        simp only [fetchBudget, isPersistOf, Bool.false_eq_true, if_false]
        omega
      · rw [Function.update_noteq (fun he => hij he.symm)] at ihh
        simp only [isPersistOf, Bool.false_eq_true, if_false]
        omega
    | @emptyPage j b hphase =>
      try dsimp only at ihh
      by_cases hij : j = i
      · subst hij
        rw [Function.update_same] at ihh
        simp only [fetchBudget] at ihh
        rw [hphase]
        simp only [fetchBudget, isPersistOf, Bool.false_eq_true, if_false]
        omega
      · rw [Function.update_noteq (fun he => hij he.symm)] at ihh
        simp only [isPersistOf, Bool.false_eq_true, if_false]
        omega
    | @persistFail j b hphase =>
      try dsimp only at ihh
      by_cases hij : j = i
      · subst hij
        rw [Function.update_same] at ihh
        simp only [fetchBudget] at ihh
        rw [hphase]
        simp only [fetchBudget, isPersistOf, Bool.false_eq_true, if_false]
        omega
      · rw [Function.update_noteq (fun he => hij he.symm)] at ihh
        simp only [isPersistOf, Bool.false_eq_true, if_false]
        omega
    | @finishPage j b count hasNext hphase hpos hle =>
      try dsimp only at ihh
      by_cases hij : j = i
      · subst hij
        rw [Function.update_same] at ihh
        have hz : fetchBudget
            (if hasNext then Phase.checkpoint else Phase.done .exhausted) = 0 := by
          cases hasNext <;> rfl
        rw [hz] at ihh
        rw [hphase]
        simp only [fetchBudget, isPersistOf, beq_self_eq_true, if_true]
        omega
      · rw [Function.update_noteq (fun he => hij he.symm)] at ihh
        have hz : (j == i) = false := by
          simpa using hij
        simp only [isPersistOf, hz, Bool.false_eq_true, if_false]
        omega

/-- A segment reaching its loop checkpoint after the target is crossed can
only halt, and the shared stop flag is set when it does. -/
theorem checkpoint_crossing_halts {n : ℕ} {s t : Sys n} {l : Label n}
    {i : Fin n} (h : Step s l t) (hseg : labelSeg l = i)
    (hphase : s.phase i = .checkpoint) (htar : s.g.target ≤ s.g.fetched) :
    (∃ r, l = .halt i r) ∧ t.g.stop = true := by
  cases h with
  | @haltStopped j hph hstop =>
    simp only [labelSeg] at hseg
    subst hseg
    exact ⟨⟨.stoppedExternally, rfl⟩, hstop⟩
  | @haltTarget j hph hstop h3 =>
    simp only [labelSeg] at hseg
    subst hseg
    exact ⟨⟨.targetReached, rfl⟩, rfl⟩
  | @haltCapped j hph hstop hlt hcap =>
    exact absurd hlt (not_lt.mpr htar)
  | @haltZeroBatch j hph hstop hlt hcap hb =>
    exact absurd hlt (not_lt.mpr htar)
  | @startFetch j hph hstop hlt hcap hb =>
    exact absurd hlt (not_lt.mpr htar)
  | @fetchFail j b hph =>
    simp only [labelSeg] at hseg
    subst hseg
    rw [hphase] at hph
    exact Phase.noConfusion hph
  | @emptyPage j b hph =>
    simp only [labelSeg] at hseg
    subst hseg
    rw [hphase] at hph
    exact Phase.noConfusion hph
  | @persistFail j b hph =>
    simp only [labelSeg] at hseg
    subst hseg
    rw [hphase] at hph
    exact Phase.noConfusion hph
  | @finishPage j b count hasNext hph hpos hle =>
    simp only [labelSeg] at hseg
    subst hseg
    rw [hphase] at hph
    exact Phase.noConfusion hph

/-- C4: once the global fetched count reaches or exceeds the target, no
segment subsequently starts a new page fetch; each segment persists at most
the one page of a fetch it was already inside; and any segment reaching its
next loop checkpoint can only terminate, with the stop flag set by whichever
segment observes the crossing. -/
theorem C4_stop_signal_convergence {n : ℕ} :
    (∀ (s t : Sys n) (ls : List (Label n)), Trace s ls t →
        s.g.target ≤ s.g.fetched →
        ∀ (i : Fin n) (b : ℕ), Label.startFetch i b ∉ ls) ∧
    (∀ (s t : Sys n) (ls : List (Label n)), Trace s ls t →
        s.g.target ≤ s.g.fetched →
        ∀ i : Fin n, pagesOf i ls ≤ fetchBudget (s.phase i)) ∧
    (∀ (s t : Sys n) (l : Label n) (i : Fin n), Step s l t → labelSeg l = i →
        s.phase i = .checkpoint → s.g.target ≤ s.g.fetched →
        (∃ r, l = .halt i r) ∧ t.g.stop = true) :=
  ⟨fun _ _ _ h htar => trace_no_startFetch h htar,
   fun _ _ _ h htar i => trace_persist_bound i h htar,
   fun _ _ _ _ hstep hseg hph htar =>
     checkpoint_crossing_halts hstep hseg hph htar⟩

/-- C4 witness: a concrete crossed trace contains no fetch start. -/
theorem C4_stop_signal_convergence_witness :
    Label.startFetch (0 : Fin 1) 5 ∉
      [Label.halt (0 : Fin 1) TermReason.targetReached] := by
  have hstep : Step sysCrossed (Label.halt 0 TermReason.targetReached)
      sysCrossedHalted :=
    Step.haltTarget rfl rfl (by decide)
  have htr : Trace sysCrossed [Label.halt 0 TermReason.targetReached]
      sysCrossedHalted :=
    Trace.cons hstep Trace.nil
  exact C4_stop_signal_convergence.1 sysCrossed sysCrossedHalted _ htr
    (by decide) 0 5

/- ===================== C8: segment failure isolation ===================== -/

/-- C8: a fetch failure (client retries exhausted) or a persistence failure
terminates only the failing segment, in state Failed: the shared global
state — fetched counter, target, stop flag — is unchanged, every sibling
segment keeps its phase and count, and every step a sibling could take
before the failure it can still take after it. -/
theorem C8_segment_failure_isolated {n : ℕ} (s t : Sys n) (i : Fin n)
    (h : Step s (.fetchFail i) t ∨ Step s (.persistFail i) t) :
    t.g = s.g ∧ t.phase i = .done .failed ∧
      (∀ j, j ≠ i → t.phase j = s.phase j) ∧ t.segCount = s.segCount ∧
      (∀ (l : Label n) (u : Sys n), Step s l u → labelSeg l ≠ i →
        ∃ u2, Step t l u2) := by
  have key : t = { s with phase := Function.update s.phase i (.done .failed) } := by
    rcases h with h | h
    · cases h with
      | fetchFail hph => rfl
    · cases h with
      | persistFail hph => rfl
  subst key
  refine ⟨rfl, Function.update_same _ _ _, ?_, rfl, ?_⟩
  · intro j hji
    exact Function.update_noteq hji _ _
  · intro l u hstep hni
    cases hstep with
    | @haltStopped j hph hstop =>
      simp only [labelSeg] at hni
      exact ⟨_, Step.haltStopped
        (by dsimp only; rw [Function.update_noteq hni]; exact hph) hstop⟩
    | @haltTarget j hph hstop h3 =>
      simp only [labelSeg] at hni
      exact ⟨_, Step.haltTarget
        (by dsimp only; rw [Function.update_noteq hni]; exact hph) hstop h3⟩
    | @haltCapped j hph hstop hlt hcap =>
      simp only [labelSeg] at hni
      exact ⟨_, Step.haltCapped
        (by dsimp only; rw [Function.update_noteq hni]; exact hph) hstop hlt hcap⟩
    | @haltZeroBatch j hph hstop hlt hcap hb =>
      simp only [labelSeg] at hni
      exact ⟨_, Step.haltZeroBatch
        (by dsimp only; rw [Function.update_noteq hni]; exact hph) hstop hlt hcap hb⟩
    | @startFetch j hph hstop hlt hcap hb =>
      simp only [labelSeg] at hni
      exact ⟨_, Step.startFetch
        (by dsimp only; rw [Function.update_noteq hni]; exact hph) hstop hlt hcap hb⟩
    | @fetchFail j b hph =>
      simp only [labelSeg] at hni
      exact ⟨_, Step.fetchFail
        (by dsimp only; rw [Function.update_noteq hni]; exact hph)⟩
    | @emptyPage j b hph =>
      simp only [labelSeg] at hni
      exact ⟨_, Step.emptyPage
        (by dsimp only; rw [Function.update_noteq hni]; exact hph)⟩
    | @persistFail j b hph =>
      simp only [labelSeg] at hni
      exact ⟨_, Step.persistFail
        (by dsimp only; rw [Function.update_noteq hni]; exact hph)⟩
    | @finishPage j b count hasNext hph hpos hle =>
      simp only [labelSeg] at hni
      exact ⟨_, Step.finishPage
        (by dsimp only; rw [Function.update_noteq hni]; exact hph) hpos hle⟩

/-- C8 witness: the failing fetch of segment 0 leaves the global state
untouched and only marks segment 0 failed. -/
theorem C8_segment_failure_isolated_witness :
    sysTwoSegFailed.g = sysTwoSeg.g ∧
      sysTwoSegFailed.phase 0 = Phase.done .failed :=
  have h := C8_segment_failure_isolated sysTwoSeg sysTwoSegFailed 0
    (Or.inl (@Step.fetchFail 2 sysTwoSeg 0 50 (by decide)))
  ⟨h.1, h.2.1⟩

/- ===================== C10: fresh session state per run ===================== -/

/-- One step adds exactly the count it persists to the global counter. -/
theorem step_fetched_add {n : ℕ} {s t : Sys n} {l : Label n}
    (h : Step s l t) : t.g.fetched = s.g.fetched + persistCount l := by
  cases h <;> simp [persistCount]

/-- A trace adds exactly the records it persists to the global counter. -/
theorem trace_fetched_sum {n : ℕ} {s t : Sys n} {ls : List (Label n)}
    (h : Trace s ls t) : t.g.fetched = s.g.fetched + persistSum ls := by
  induction h with
  | nil => simp [persistSum]
  | @cons s t u l ls hstep htr ih =>
    rw [ih, step_fetched_add hstep]
    simp [persistSum]
    omega

/-- C10: run() starts by resetting the global fetched counter to 0 and
clearing the stop flag, so each run starts from a fresh session regardless
of what a previous run on the same crawler left behind, and the final
reported fetched count equals exactly what the current run persisted. -/
theorem C10_run_starts_fresh (g : Global) :
    (runInit g).fetched = 0 ∧ (runInit g).stop = false ∧
      (∀ g2 : Global, g2.target = g.target → g2.batchCfg = g.batchCfg →
        runInit g2 = runInit g) ∧
      (∀ (n : ℕ) (s t : Sys n) (ls : List (Label n)),
        Trace s ls t → s.g = runInit g → t.g.fetched = persistSum ls) := by
  refine ⟨rfl, rfl, ?_, ?_⟩
  · intro g2 h1 h2
    simp only [runInit]
    rw [h1, h2]
  · intro n s t ls htr hsg
    rw [trace_fetched_sum htr, hsg]
    simp [runInit]

/-- C10 witness: after a run that persisted nothing, the reported count is
the persisted sum of the current trace, 0 — independent of the stale
counter 77 left by a previous run. -/
theorem C10_run_starts_fresh_witness :
    sysFreshHalted.g.fetched =
      persistSum [Label.halt (0 : Fin 1) TermReason.targetReached] :=
  have hstep : Step sysFresh (Label.halt 0 TermReason.targetReached)
      sysFreshHalted :=
    Step.haltTarget rfl rfl (by decide)
  (C10_run_starts_fresh
    { fetched := 77, target := 0, batchCfg := 100, stop := true }).2.2.2
    1 sysFresh sysFreshHalted _ (Trace.cons hstep Trace.nil) (by decide)
